import Mathlib

/-!
Verification development for the AI real-estate listing backend
(`src/unnamed/part_001`, the Express server).  The development shallowly
embeds the listing store (JSON-file backed), the HTML-escaping and
formatting helpers, the PDF template builder `buildPdfHtml`, and the
image-inlining helper `imageUrlToDataUri`, and proves the specified
properties about them.

Modelling conventions:
* JSON values (request bodies, stored records) are the inductive `Json`.
  JavaScript `undefined` (absent property) is `Option.none` at use sites.
* JS numbers are modelled as exact integers/naturals; every concrete value
  exercised by the claims is a small integer on which IEEE doubles are
  exact.
* The filesystem read by `imageUrlToDataUri` is an oracle
  `String → Option (List Nat)` mapping the uploads-relative URL to the
  file's bytes (`none` = missing or unreadable); `path.join(__dirname, s)`
  is folded into the oracle's keying.
* Strings are manipulated through their character lists (`String.data`).
-/

/-- characters written via code points to keep source lexing simple -/
def squote : Char := Char.ofNat 39

/-- double-quote character -/
def dquote : Char := Char.ofNat 34

/-- a JSON value, the unit of request bodies and of persisted listings -/
inductive Json where
  | null : Json
  | bool (b : Bool) : Json
  | num (i : Int) : Json
  | str (s : String) : Json
  | arr (xs : List Json) : Json
  | obj (kvs : List (String × Json)) : Json

/-- first value bound to a key in a JS object literal, as property lookup -/
def findVal : List (String × Json) → String → Option Json
  | [], _ => none
  | (k, v) :: rest, key => if k = key then some v else findVal rest key

/-- JS property access `v.k`: a lookup on objects, `undefined` (none)
on every non-object (matching `"x".k`, `(5).k`; `null.k` throws in JS but
every access in the translated code is either guarded by `?.`/truthiness
or reached only under a no-null-elements hypothesis) -/
def optIdx (v : Json) (key : String) : Option Json :=
  match v with
  | .obj kvs => findVal kvs key
  | _ => none

/-- optional chaining `o?.k` on an already-optional value -/
def optIdx2 (o : Option Json) (key : String) : Option Json :=
  match o with
  | some v => optIdx v key
  | none => none

/-- JS truthiness of a JSON value -/
def jsTruthy : Json → Bool
  | .null => false
  | .bool b => b
  | .num i => i ≠ 0
  | .str s => s ≠ ""
  | .arr _ => true
  | .obj _ => true

/-- JS truthiness where `none` stands for `undefined` -/
def jsTruthyOpt : Option Json → Bool
  | none => false
  | some v => jsTruthy v

/-- JS `a || b` with a possibly-undefined left operand -/
def jsOr (o : Option Json) (d : Json) : Json :=
  match o with
  | some v => if jsTruthy v then v else d
  | none => d

/-- JS `a || b` on strings (the only falsy string is the empty one) -/
def jsOrStr (s d : String) : String :=
  if s = "" then d else s

mutual
/-- JS `String(v)` conversion (objects display as `[object Object]`;
array elements are joined by commas with `null` rendered empty) -/
def jsToString : Json → String
  | .null => "null"
  | .bool true => "true"
  | .bool false => "false"
  | .num i => toString i
  | .str s => s
  | .arr xs => String.intercalate "," (jsToStringElems xs)
  | .obj _ => "[object Object]"

/-- display of the elements for `Array.prototype.join` -/
def jsToStringElems : List Json → List String
  | [] => []
  | .null :: vs => "" :: jsToStringElems vs
  | v :: vs => jsToString v :: jsToStringElems vs
end

instance : DecidableEq Json := fun a b =>
  match a, b with
  | .null, .null => isTrue rfl
  | .bool x, .bool y =>
      if h : x = y then isTrue (by rw [h]) else isFalse (by simp [h])
  | .num x, .num y =>
      if h : x = y then isTrue (by rw [h]) else isFalse (by simp [h])
  | .str x, .str y =>
      if h : x = y then isTrue (by rw [h]) else isFalse (by simp [h])
  | .arr xs, .arr ys =>
      match decEqList xs ys with
      | isTrue h => isTrue (by rw [h])
      | isFalse h => isFalse (by simp [h])
  | .obj xs, .obj ys =>
      match decEqKVList xs ys with
      | isTrue h => isTrue (by rw [h])
      | isFalse h => isFalse (by simp [h])
  | .null, .bool _ | .null, .num _ | .null, .str _ | .null, .arr _ | .null, .obj _
  | .bool _, .null | .bool _, .num _ | .bool _, .str _ | .bool _, .arr _ | .bool _, .obj _
  | .num _, .null | .num _, .bool _ | .num _, .str _ | .num _, .arr _ | .num _, .obj _
  | .str _, .null | .str _, .bool _ | .str _, .num _ | .str _, .arr _ | .str _, .obj _
  | .arr _, .null | .arr _, .bool _ | .arr _, .num _ | .arr _, .str _ | .arr _, .obj _
  | .obj _, .null | .obj _, .bool _ | .obj _, .num _ | .obj _, .str _ | .obj _, .arr _ =>
      isFalse (by intro h; exact absurd h (by simp))
where
  decEqList : (xs ys : List Json) → Decidable (xs = ys)
    | [], [] => isTrue rfl
    | [], _ :: _ => isFalse (by simp)
    | _ :: _, [] => isFalse (by simp)
    | x :: xs, y :: ys =>
        match instDecidableEqJson x y, decEqList xs ys with
        | isTrue h1, isTrue h2 => isTrue (by rw [h1, h2])
        | isFalse h1, _ => isFalse (by simp [h1])
        | _, isFalse h2 => isFalse (by simp [h2])
  decEqKVList : (xs ys : List (String × Json)) → Decidable (xs = ys)
    | [], [] => isTrue rfl
    | [], _ :: _ => isFalse (by simp)
    | _ :: _, [] => isFalse (by simp)
    | (k1, v1) :: xs, (k2, v2) :: ys =>
        match decEq k1 k2, instDecidableEqJson v1 v2, decEqKVList xs ys with
        | isTrue h0, isTrue h1, isTrue h2 => isTrue (by rw [h0, h1, h2])
        | isFalse h0, _, _ => isFalse (by simp [h0])
        | _, isFalse h1, _ => isFalse (by simp [h1])
        | _, _, isFalse h2 => isFalse (by simp [h2])

/-- JS whitespace as removed by `String.prototype.trim` (ASCII subset;
the Unicode space classes never arise in the claims) -/
def jsWS (c : Char) : Bool :=
  c = ' ' ∨ c = Char.ofNat 9 ∨ c = Char.ofNat 10 ∨ c = Char.ofNat 13 ∨
    c = Char.ofNat 11 ∨ c = Char.ofNat 12

/-- trim on character lists, both ends -/
def trimChars (l : List Char) : List Char :=
  ((l.dropWhile jsWS).reverse.dropWhile jsWS).reverse

/-- JS `String(v ?? "")`: nullish values display empty -/
def jsStr (v : Option Json) : String :=
  match v with
  | none => ""
  | some .null => ""
  | some x => jsToString x

/-- single-character `String.prototype.includes` test -/
def hasChar (s : String) (c : Char) : Bool := s.data.contains c

/-- `String.prototype.startsWith` -/
def strStartsWith (s pre : String) : Bool := pre.data.isPrefixOf s.data

/-! ### escapeHtml (src/unnamed/part_001 lines 83–90) -/

/-- JS `replaceAll` specialised to a single-character pattern -/
def replaceAllC (p : Char) (r : List Char) : List Char → List Char
  | [] => []
  | c :: cs => (if c = p then r else [c]) ++ replaceAllC p r cs

/-- the five sequential `replaceAll` passes of `escapeHtml`, on the
character list of `String(str ?? "")` -/
def escapeChars (l : List Char) : List Char :=
  replaceAllC squote "&#039;".data
    (replaceAllC dquote "&quot;".data
      (replaceAllC '>' "&gt;".data
        (replaceAllC '<' "&lt;".data
          (replaceAllC '&' "&amp;".data l))))

/-- `escapeHtml` from the source: coerce, default nullish to empty,
then run the five replacement passes -/
def escapeHtml (v : Option Json) : String :=
  String.mk (escapeChars (jsStr v).data)

/-- per-character view of the combined replacement passes -/
def escChar (c : Char) : List Char :=
  if c = '&' then "&amp;".data
  else if c = '<' then "&lt;".data
  else if c = '>' then "&gt;".data
  else if c = dquote then "&quot;".data
  else if c = squote then "&#039;".data
  else [c]

theorem replaceAllC_append (p : Char) (r a b : List Char) :
    replaceAllC p r (a ++ b) = replaceAllC p r a ++ replaceAllC p r b := by
  induction a with
  | nil => rfl
  | cons c cs ih => simp [replaceAllC, ih]

theorem escapeChars_cons (c : Char) (cs : List Char) :
    escapeChars (c :: cs) = escChar c ++ escapeChars cs := by
  show escapeChars (([c] ++ cs)) = _
  unfold escapeChars
  rw [replaceAllC_append, replaceAllC_append, replaceAllC_append,
    replaceAllC_append, replaceAllC_append]
  congr 1
  by_cases h1 : c = '&'
  · subst h1; rfl
  · by_cases h2 : c = '<'
    · subst h2; rfl
    · by_cases h3 : c = '>'
      · subst h3; rfl
      · by_cases h4 : c = dquote
        · subst h4; rfl
        · by_cases h5 : c = squote
          · subst h5; rfl
          · simp [escChar, replaceAllC, h1, h2, h3, h4, h5]

/-- the composed passes are exactly the per-character expansion -/
theorem escapeChars_eq_flatMap (l : List Char) :
    escapeChars l = l.flatMap escChar := by
  induction l with
  | nil => rfl
  | cons c cs ih => rw [escapeChars_cons, ih]; rfl

/-! ### escaped-fragment safety -/

/-- the raw characters that must not survive escaping -/
def badChars : List Char := ['<', '>', dquote, squote]

/-- entity bodies an `&` may begin in escaped output -/
def entityTails : List (List Char) := ["amp;".data, "lt;".data, "gt;".data,
  "quot;".data, "#039;".data]

/-- a fragment is safe when it contains no raw `<`, `>`, quote or
apostrophe and every `&` opens one of the five emitted entities -/
def fragSafe : List Char → Bool
  | [] => true
  | c :: cs =>
      (if c = '&' then entityTails.any (fun t => t.isPrefixOf cs)
       else !(badChars.contains c)) && fragSafe cs

theorem fragSafe_escChar_append (c : Char) (rest : List Char) :
    fragSafe (escChar c ++ rest) = fragSafe rest := by
  by_cases h1 : c = '&'
  · subst h1
    show fragSafe ('&' :: 'a' :: 'm' :: 'p' :: ';' :: rest) = fragSafe rest
    simp [fragSafe, entityTails, List.isPrefixOf, badChars, dquote, squote]
  · by_cases h2 : c = '<'
    · subst h2
      show fragSafe ('&' :: 'l' :: 't' :: ';' :: rest) = fragSafe rest
      simp [fragSafe, entityTails, List.isPrefixOf, badChars, dquote, squote]
    · by_cases h3 : c = '>'
      · subst h3
        show fragSafe ('&' :: 'g' :: 't' :: ';' :: rest) = fragSafe rest
        simp [fragSafe, entityTails, List.isPrefixOf, badChars, dquote, squote]
      · by_cases h4 : c = dquote
        · subst h4
          show fragSafe ('&' :: 'q' :: 'u' :: 'o' :: 't' :: ';' :: rest) = fragSafe rest
          simp [fragSafe, entityTails, List.isPrefixOf, badChars, dquote, squote]
        · by_cases h5 : c = squote
          · subst h5
            show fragSafe ('&' :: '#' :: '0' :: '3' :: '9' :: ';' :: rest) = fragSafe rest
            simp [fragSafe, entityTails, List.isPrefixOf, badChars, dquote, squote]
          · have : escChar c = [c] := by simp [escChar, h1, h2, h3, h4, h5]
            rw [this]
            simp [fragSafe, h1, badChars, h2, h3, h4, h5]

/-- escaping always yields a safe fragment -/
theorem fragSafe_escapeChars (l : List Char) : fragSafe (escapeChars l) = true := by
  rw [escapeChars_eq_flatMap]
  induction l with
  | nil => rfl
  | cons c cs ih =>
      rw [List.flatMap_cons, fragSafe_escChar_append]
      exact ih

/-- a list of characters avoiding ampersands and the raw specials is safe -/
theorem fragSafe_of_all_plain (l : List Char)
    (h : ∀ c ∈ l, c ≠ '&' ∧ badChars.contains c = false) :
    fragSafe l = true := by
  induction l with
  | nil => rfl
  | cons c cs ih =>
      have hc := h c (List.mem_cons_self c cs)
      simp only [fragSafe, hc.1, if_neg hc.1, hc.2, Bool.not_false,
        Bool.true_and]
      exact ih (fun d hd => h d (List.mem_cons_of_mem c hd))

/-! ### base64 encoding and imageUrlToDataUri (src/unnamed/part_001 lines 92–110) -/

/-- the base64 alphabet in index order -/
def b64Alphabet : List Char :=
  "ABCDEFGHIJKLMNOPQRSTUVWXYZabcdefghijklmnopqrstuvwxyz0123456789+/".data

/-- alphabet character for a 6-bit group -/
def b64Char (n : Nat) : Char := b64Alphabet.getD n 'A'

/-- standard base64 of a byte sequence, with `=` padding -/
def base64Encode : List Nat → List Char
  | [] => []
  | [a] => [b64Char (a / 4), b64Char (a % 4 * 16), '=', '=']
  | [a, b] => [b64Char (a / 4), b64Char (a % 4 * 16 + b / 16),
      b64Char (b % 16 * 4), '=']
  | a :: b :: c :: rest =>
      [b64Char (a / 4), b64Char (a % 4 * 16 + b / 16),
        b64Char (b % 16 * 4 + c / 64), b64Char (c % 64)] ++ base64Encode rest

/-- everything base64 emits stays clear of markup-significant characters -/
def plainChar (c : Char) : Prop := c ≠ '&' ∧ badChars.contains c = false

instance plainChar.instDecidable : DecidablePred plainChar := fun c =>
  decidable_of_iff (c ≠ '&' ∧ badChars.contains c = false) Iff.rfl

theorem b64Char_plain (n : Nat) : plainChar (b64Char n) := by
  have hall : ∀ c ∈ b64Alphabet, c ≠ '&' ∧ badChars.contains c = false := by
    decide
  unfold b64Char
  rcases Nat.lt_or_ge n b64Alphabet.length with h | h
  · rw [List.getD_eq_getElem b64Alphabet 'A' h]
    exact hall _ (List.getElem_mem h)
  · rw [List.getD_eq_default b64Alphabet 'A' h]
    exact hall 'A' (by decide)

theorem base64Encode_plain (bs : List Nat) :
    ∀ c ∈ base64Encode bs, plainChar c := by
  have heq : plainChar '=' := by constructor <;> decide
  induction bs using base64Encode.induct with
  | case1 => intro c hc; simp [base64Encode] at hc
  | case2 a =>
      intro c hc
      simp only [base64Encode, List.mem_cons, List.not_mem_nil, or_false] at hc
      rcases hc with h | h | h | h <;> subst h
      · exact b64Char_plain _
      · exact b64Char_plain _
      · exact heq
      · exact heq
  | case3 a b =>
      intro c hc
      simp only [base64Encode, List.mem_cons, List.not_mem_nil, or_false] at hc
      rcases hc with h | h | h | h <;> subst h
      · exact b64Char_plain _
      · exact b64Char_plain _
      · exact b64Char_plain _
      · exact heq
  | case4 a b c3 rest ih =>
      intro c hc
      simp only [base64Encode, List.cons_append, List.nil_append,
        List.mem_cons] at hc
      rcases hc with h | h | h | h | h
      · subst h; exact b64Char_plain _
      · subst h; exact b64Char_plain _
      · subst h; exact b64Char_plain _
      · subst h; exact b64Char_plain _
      · exact ih c h

/-- `path.extname`: from the last dot of the final path component to the
end; empty when there is no dot or when the only dot leads the component
(computed on the uploads-relative URL itself; `path.join` with the fixed
server directory leaves the final component and hence the extension
unchanged) -/
def extnameL (p : List Char) : List Char :=
  let base := (p.reverse.takeWhile (fun c => c ≠ '/')).reverse
  let afterDot := base.reverse.takeWhile (fun c => c ≠ '.')
  if afterDot.length ≥ base.length then []
  else if afterDot.length + 1 = base.length then []
  else '.' :: afterDot.reverse

/-- MIME type chosen from the lower-cased extension -/
def mimeForExt (ext : String) : String :=
  if ext = ".png" then "image/png"
  else if ext = ".webp" then "image/webp"
  else "image/jpeg"

/-- `imageUrlToDataUri` (lines 92–110): only falsy-free references into
the local `/uploads/` retrieval path whose file the oracle can produce are
inlined, as a base64 data URI with extension-derived MIME type -/
def imageUrlToDataUri (fsO : String → Option (List Nat))
    (imageUrl : Option Json) : Option String :=
  match imageUrl with
  | none => none
  | some v =>
      if jsTruthy v = false then none
      else
        let s := jsToString v
        if strStartsWith s "/uploads/" = false then none
        else
          match fsO s with
          | none => none
          | some bytes =>
              let ext := String.mk ((extnameL s.data).map Char.toLower)
              some ("data:" ++ mimeForExt ext ++ ";base64," ++
                String.mk (base64Encode bytes))

theorem fragSafe_of_plain_append (a b : List Char)
    (ha : ∀ c ∈ a, plainChar c) (hb : ∀ c ∈ b, plainChar c) :
    fragSafe (a ++ b) = true := by
  apply fragSafe_of_all_plain
  intro c hc
  rcases List.mem_append.mp hc with h | h
  · exact ha c h
  · exact hb c h

/-- a produced data URI is markup-safe: its characters avoid `&`, angle
brackets and both quote characters -/
theorem imageUrlToDataUri_fragSafe (fsO : String → Option (List Nat))
    (u : Option Json) (d : String) (h : imageUrlToDataUri fsO u = some d) :
    fragSafe d.data = true := by
  rcases u with _ | v
  · exact absurd h (by simp [imageUrlToDataUri])
  · simp only [imageUrlToDataUri] at h
    by_cases ht : jsTruthy v = false
    · rw [if_pos ht] at h; exact absurd h (by simp)
    · rw [if_neg ht] at h
      by_cases hs : strStartsWith (jsToString v) "/uploads/" = false
      · rw [if_pos hs] at h; exact absurd h (by simp)
      · rw [if_neg hs] at h
        rcases hfs : fsO (jsToString v) with _ | bytes
        · rw [hfs] at h; exact absurd h (by simp)
        · rw [hfs] at h
          simp only [Option.some.injEq] at h
          subst h
          have hdata : ("data:" ++
              mimeForExt (String.mk ((extnameL (jsToString v).data).map Char.toLower)) ++
              ";base64," ++ String.mk (base64Encode bytes)).data
              = ("data:" ++ mimeForExt (String.mk ((extnameL (jsToString v).data).map Char.toLower)) ++
                ";base64,").data ++ base64Encode bytes := by
            simp [String.data_append]
          rw [hdata]
          apply fragSafe_of_plain_append
          · intro c hc
            have hpre : ∀ m ∈ ["image/png", "image/webp", "image/jpeg"],
                ∀ c ∈ ("data:" ++ m ++ ";base64,").data, plainChar c := by
              decide
            unfold mimeForExt at hc
            split at hc
            · exact hpre "image/png" (by decide) c hc
            · split at hc
              · exact hpre "image/webp" (by decide) c hc
              · exact hpre "image/jpeg" (by decide) c hc
          · exact base64Encode_plain bytes

/-! ### fmtCurrency / fmtNumber (src/unnamed/part_001 lines 112–128) -/

/-- the regex replace `s.replace(/[^\d.]/g, "")`: keep ASCII digits and
dots only -/
def stripNonDigitDot (l : List Char) : List Char :=
  l.filter (fun c => c.isDigit || c = '.')

/-- value of a digit string, empty meaning zero (as for JS `Number("")`) -/
def digitsToNat (l : List Char) : Nat :=
  l.foldl (fun a c => a * 10 + (c.toNat - 48)) 0

/-- JS `Number` on a digits-and-dots string, already rounded to an
integer the way `Intl.NumberFormat` with `maximumFractionDigits: 0` does
(round half away from zero; the stripped string has no sign, so the value
is a natural number).  `none` models `NaN` (two dots, or a lone dot).
Number strings are modelled exactly; IEEE-double rounding of extreme
inputs is outside the claims. -/
def jsRoundedNumber (l : List Char) : Option Nat :=
  let intPart := l.takeWhile (fun c => c ≠ '.')
  let rest := l.dropWhile (fun c => c ≠ '.')
  match rest with
  | [] => some (digitsToNat intPart)
  | _ :: frac =>
      if frac.contains '.' then none
      else if intPart = [] ∧ frac = [] then none
      else some (digitsToNat intPart +
        if 2 * digitsToNat frac ≥ 10 ^ frac.length then 1 else 0)

/-- comma grouping on a reversed digit list -/
def groupRev : List Char → List Char
  | a :: b :: c :: d :: rest => a :: b :: c :: ',' :: groupRev (d :: rest)
  | l => l

/-- `Intl.NumberFormat("en-US", { maximumFractionDigits: 0 })` on a
natural number: decimal digits with `,` every three from the right -/
def intlGroup (n : Nat) : String :=
  String.mk (groupRev (Nat.repr n).data.reverse).reverse

/-- `fmtCurrency` (lines 112–119): empty stays empty; a `$` or `,`
anywhere passes the trimmed string through; otherwise all characters but
digits and dots are stripped, the residue is read as a number (`NaN`
passes the trimmed string through) and rendered as `$`-prefixed grouped
dollars -/
def fmtCurrency (v : Option Json) : String :=
  let s := String.mk (trimChars (jsStr v).data)
  if s = "" then ""
  else if hasChar s '$' || hasChar s ',' then s
  else
    match jsRoundedNumber (stripNonDigitDot s.data) with
    | none => s
    | some n => "$" ++ intlGroup n

/-- `fmtNumber` (lines 121–128): like `fmtCurrency` but the passthrough
test looks for `,` only and the rendering has no currency prefix -/
def fmtNumber (v : Option Json) : String :=
  let s := String.mk (trimChars (jsStr v).data)
  if s = "" then ""
  else if hasChar s ',' then s
  else
    match jsRoundedNumber (stripNonDigitDot s.data) with
    | none => s
    | some n => intlGroup n

/-! ### Listing store and route handlers (src/unnamed/part_001
lines 42–59 and 328–413) -/

/-- state of the backing `listings.json` file as seen through
`fs.readFileSync` + `JSON.parse`: absent, present but not valid JSON
(the parse throws), or present with a parsed value.  `ensureDataFile`
creates an empty-array file when absent, so the missing case also reads
back the empty array. -/
inductive FileState where
  | missing : FileState
  | unparsable (raw : String) : FileState
  | parsed (v : Json) : FileState

/-- `readListings` (lines 46–55): total by construction — the JS `try`
swallows every read/parse failure into `[]`, and a parsed non-array also
collapses to `[]` via the `Array.isArray` check -/
def readListings : FileState → List Json
  | .missing => []
  | .unparsable _ => []
  | .parsed v =>
      match v with
      | .arr xs => xs
      | _ => []

/-- the `find`/`filter` callback `l.id === req.params.id`: strict JS
equality against the (string) route parameter holds exactly for a string
`id` property with the same characters -/
def idIs (id : String) (l : Json) : Bool :=
  match optIdx l "id" with
  | some (.str s) => s = id
  | _ => false

/-- `GET /api/listings/:id` lookup (lines 377–387): first match wins -/
def getById (id : String) (store : List Json) : Option Json :=
  store.find? (idIs id)

/-- `POST /api/listings/save` (lines 389–401): reject a falsy
`listing?.id` with 400 before touching the store, otherwise `unshift`
the raw body onto the stored sequence and persist.  The result is the
HTTP status with the `ok` flag of the JSON envelope, and the persisted
sequence. -/
def saveHandler (body : Json) (store : List Json) :
    (Nat × Bool) × List Json :=
  if jsTruthyOpt (optIdx2 (if body = .null then none else some body) "id")
      = false then
    ((400, false), store)
  else
    ((200, true), body :: store)

/-- `DELETE /api/listings/:id` (lines 403–413): filter out every record
whose id matches, persist the remainder, and answer `{ ok: true }`
unconditionally -/
def deleteHandler (id : String) (store : List Json) :
    (Nat × Bool) × List Json :=
  ((200, true), store.filter (fun l => !(idIs id l)))

/-- the listing object assembled by `POST /api/listings/generate`
(lines 338–362): a fresh id and timestamp, the generated title (first
line, with a default) and description, and every remaining field
defaulted to the empty string when the input's value is falsy -/
def generateListing (newId now genTitle genDescription : String)
    (input : Json) : Json :=
  .obj [
    ("id", .str newId),
    ("createdAt", .str now),
    ("tone", jsOr (optIdx input "tone") (.str "MLS (English)")),
    ("title", .str (jsOrStr genTitle "Property Listing")),
    ("description", .str (jsOrStr genDescription "")),
    ("address", jsOr (optIdx input "address") (.str "")),
    ("city", jsOr (optIdx input "city") (.str "")),
    ("state", jsOr (optIdx input "state") (.str "")),
    ("price", jsOr (optIdx input "price") (.str "")),
    ("beds", jsOr (optIdx input "beds") (.str "")),
    ("baths", jsOr (optIdx input "baths") (.str "")),
    ("sqft", jsOr (optIdx input "sqft") (.str "")),
    ("yearBuilt", jsOr (optIdx input "yearBuilt") (.str "")),
    ("features", jsOr (optIdx input "features") (.str "")),
    ("descriptionInput", jsOr (optIdx input "descriptionInput") (.str "")),
    ("imageUrl", jsOr (optIdx input "imageUrl") (.str "")),
    ("agent", .obj [
      ("name", jsOr (optIdx2 (optIdx input "agent") "name") (.str "")),
      ("brokerage", jsOr (optIdx2 (optIdx input "agent") "brokerage") (.str "")),
      ("phone", jsOr (optIdx2 (optIdx input "agent") "phone") (.str "")),
      ("email", jsOr (optIdx2 (optIdx input "agent") "email") (.str "")),
      ("logoUrl", jsOr (optIdx2 (optIdx input "agent") "logoUrl") (.str ""))])]

/-- null test on a JSON value -/
def isNullJ : Json → Bool
  | .null => true
  | _ => false

/-- array test (`Array.isArray`) -/
def isArrJ : Json → Bool
  | .arr _ => true
  | _ => false

/-- the flat fields of a Listing Record -/
def topFields : List String :=
  ["id", "createdAt", "tone", "title", "description", "address", "city",
   "state", "price", "beds", "baths", "sqft", "yearBuilt", "features",
   "descriptionInput", "imageUrl"]

/-- the nested agent fields -/
def agentFields : List String :=
  ["name", "brokerage", "phone", "email", "logoUrl"]

/-- the persisted-form invariant of the spec's data model: every named
field of the record (and of its agent sub-record) is present and not
null -/
def wfListing (j : Json) : Bool :=
  topFields.all (fun k =>
    match optIdx j k with
    | some v => !isNullJ v
    | none => false) &&
  (match optIdx j "agent" with
   | some (.obj _) =>
       agentFields.all (fun k =>
         match optIdx2 (optIdx j "agent") k with
         | some v => !isNullJ v
         | none => false)
   | _ => false)

/-! ### buildPdfHtml (src/unnamed/part_001 lines 203–318)

The template literal is decomposed into tagged parts: `const` for the
literal template text, `esc` for an `${escapeHtml(...)}` interpolation
(rendering applies the escaping), `uri` for an interpolated image data
URI.  Rendering the part list and trimming reproduces the returned
string character for character. -/

inductive Seg where
  | const (s : String) : Seg
  | esc (v : Option Json) : Seg
  | uri (d : String) : Seg

/-- literal-template part test -/
def Seg.isConst : Seg → Bool
  | .const _ => true
  | _ => false

/-- data-URI part test -/
def Seg.isUri : Seg → Bool
  | .uri _ => true
  | _ => false

/-- characters a part contributes to the document -/
def Seg.text : Seg → List Char
  | .const s => s.data
  | .esc v => escapeChars (jsStr v).data
  | .uri d => d.data

/-- concatenation of the rendered parts -/
def renderParts (ps : List Seg) : List Char := ps.flatMap Seg.text

/-- `[ ... ].filter(Boolean).join(sep)` over possibly-absent values -/
def joinTruthy (sep : String) (vs : List (Option Json)) : String :=
  String.intercalate sep (((vs.filterMap id).filter jsTruthy).map jsToString)

/-- an `${x ? `pre ${escapeHtml(x)} post` : ""}` template conditional -/
def condEsc (pre post : String) (v : Option Json) : List Seg :=
  if jsTruthyOpt v then [.const pre, .esc v, .const post] else []

/-- an `${uri ? `pre ${uri} post` : ""}` image conditional -/
def imgBlock (pre post : String) (du : Option String) : List Seg :=
  match du with
  | some d => [.const pre, .uri d, .const post]
  | none => []

/-- the hero-image conditional of the template (line 282) -/
def heroBlock (du : Option String) : List Seg :=
  imgBlock "<div class=\"hero\"><img src=\"" "\" /></div>" du

/-- the agent-logo conditional of the template (line 272) -/
def logoBlock (du : Option String) : List Seg :=
  imgBlock "<div class=\"logoBox\"><img src=\"" "\" /></div>" du

/-- `presentedBy` (line 211): the escaped agent name or a literal dash -/
def presentedParts (name : Option Json) : List Seg :=
  if jsTruthyOpt name then [.esc name] else [.const "—"]

/-- `brokerageSuffix` (line 212): separator glyph plus escaped brokerage -/
def brokerageSuffixParts (b : Option Json) : List Seg :=
  if jsTruthyOpt b then [.const " • ", .esc b] else []

/-- template text from the opening through `<p class="title">`
(lines 214–265); CSS braces appear as their code points -/
def pdfK1 : String := "\n<!doctype html>\n<html>\n<head>\n  <meta charset=\"utf-8\" />\n  <title>Listing PDF</title>\n  <style>\n    body \x7b font-family: Arial, sans-serif; margin: 40px; color: #111; \x7d\n    :root \x7b --accent: #111; \x7d\n\n    .topbar \x7b display:flex; justify-content: space-between; align-items:flex-start; gap:18px; \x7d\n    .left \x7b flex: 1; \x7d\n    .right \x7b width: 260px; text-align: right; \x7d\n\n    .title \x7b font-size: 22px; font-weight: 800; margin: 0; letter-spacing: .2px; \x7d\n    .subtitle \x7b margin: 6px 0 0 0; color: #444; font-size: 12px; line-height: 1.35; \x7d\n\n    .badge \x7b display:inline-block; margin-top: 10px; font-size: 11px; padding: 6px 10px; border: 1px solid #ddd; border-radius: 999px; color: #111; background: #fff; \x7d\n\n    .presented \x7b margin-top: 12px; font-size: 11px; color: #666; \x7d\n    .presented b \x7b color: #111; \x7d\n\n    .logoBox \x7b display:flex; justify-content:flex-end; margin-bottom: 10px; \x7d\n    .logoBox img \x7b max-width: 170px; max-height: 70px; object-fit: contain; \x7d\n\n    .agentCard \x7b border: 1px solid #eee; border-radius: 14px; padding: 12px; text-align: left; background: #fff; \x7d\n    .agentName \x7b font-weight: 800; font-size: 13px; margin: 0; color: #111; \x7d\n    .agentLine \x7b font-size: 11px; color:#444; margin: 4px 0; \x7d\n\n    .hero \x7b margin-top: 18px; border: 1px solid #eee; border-radius: 16px; overflow: hidden; \x7d\n    .hero img \x7b width: 100%; height: 280px; object-fit: cover; display:block; \x7d\n\n    .grid \x7b display:grid; grid-template-columns: 1fr 1fr; gap: 14px; margin-top: 16px; \x7d\n    .card \x7b border: 1px solid #eee; border-radius: 14px; padding: 14px; background:#fff; \x7d\n    .k \x7b color: #666; font-size: 11px; text-transform: uppercase; letter-spacing: .04em; \x7d\n    .v \x7b font-size: 14px; font-weight: 700; margin-top: 4px; \x7d\n    .priceBig \x7b font-size: 18px; font-weight: 900; color: var(--accent); \x7d\n\n    .desc \x7b margin-top: 16px; line-height: 1.5; white-space: pre-wrap; font-size: 12.5px; \x7d\n\n    .footerBar \x7b margin-top: 20px; border-top: 1px solid #eee; padding-top: 12px; display:flex; justify-content: space-between; align-items: center; gap: 14px; font-size: 10.5px; color:#666; \x7d\n    .footerLeft \x7b display:flex; align-items:center; gap:10px; flex-wrap:wrap; \x7d\n    .footerDot \x7b width: 4px; height: 4px; border-radius: 999px; background: #bbb; display:inline-block; \x7d\n    .footerRight \x7b text-align:right; \x7d\n    .smallCaps \x7b text-transform: uppercase; letter-spacing: .08em; font-size: 10px; color:#777; \x7d\n  </style>\n</head>\n<body>\n\n  <div class=\"topbar\">\n    <div class=\"left\">\n      <p class=\"title\">"

/-- between the title and the address line -/
def pdfK2 : String := "</p>\n      <p class=\"subtitle\">"

/-- between the address line and the tone badge -/
def pdfK3 : String := "</p>\n      <div class=\"badge\">"

/-- between the tone badge and the presenter -/
def pdfK4 : String := "</div>\n      <div class=\"presented\">Presented by <b>"

/-- closes the presenter name -/
def pdfK5 : String := "</b>"

/-- from the presenter line to the logo conditional -/
def pdfK6 : String := "</div>\n    </div>\n\n    <div class=\"right\">\n      "

/-- from the logo conditional into the agent card -/
def pdfK7 : String := "\n      <div class=\"agentCard\">\n        "

/-- agent-card line separators -/
def pdfK8 : String := "\n        "

/-- agent-card line separators -/
def pdfK9 : String := "\n        "

/-- agent-card line separators -/
def pdfK10 : String := "\n        "

/-- closes topbar, before the hero conditional -/
def pdfK11 : String := "\n      </div>\n    </div>\n  </div>\n\n  "

/-- from the hero conditional to the price card -/
def pdfK12 : String := "\n\n  <div class=\"grid\">\n    <div class=\"card\">\n      <div class=\"k\">Price</div>\n      <div class=\"v priceBig\">"

/-- between the price and beds/baths/sqft cards -/
def pdfK13 : String := "</div>\n    </div>\n    <div class=\"card\">\n      <div class=\"k\">Beds / Baths / Sqft</div>\n      <div class=\"v\">"

/-- closes the grid, before the year-built conditional -/
def pdfK14 : String := "</div>\n    </div>\n  </div>\n\n  "

/-- opening of the year-built card inside its conditional -/
def pdfYearPre : String := "\n    <div class=\"card\" style=\"margin-top:14px;\">\n      <div class=\"k\">Year Built</div>\n      <div class=\"v\">"

/-- closing of the year-built card inside its conditional -/
def pdfYearPost : String := "</div>\n    </div>\n  "

/-- before the description block -/
def pdfK15 : String := "\n\n  <div class=\"card desc\">"

/-- from the description into the footer, before the agent name -/
def pdfK16 : String := "</div>\n\n  <div class=\"footerBar\">\n    <div class=\"footerLeft\">\n      <span class=\"smallCaps\">Listing Flyer</span>\n      <span class=\"footerDot\"></span>\n      <span>"

/-- after the footer agent name -/
def pdfK17 : String := "</span>\n      "

/-- between the footer phone and email conditionals -/
def pdfK18 : String := "\n      "

/-- before the generation timestamp -/
def pdfK19 : String := "\n    </div>\n    <div class=\"footerRight\">Generated "

/-- closing of the document -/
def pdfK20 : String := "</div>\n  </div>\n\n</body>\n</html>\n"

/-- the opening of the footer phone/email conditionals -/
def footerSpanPre : String := "<span class=\"footerDot\"></span><span>"

/-- the tagged decomposition of `buildPdfHtml`'s template literal, in
source order with the source's interpolations -/
def buildPdfParts (fsO : String → Option (List Nat)) (ts : String)
    (listing : Json) : List Seg :=
  let agent := jsOr (optIdx listing "agent") (.obj [])
  let propertyImageDataUri := imageUrlToDataUri fsO (optIdx listing "imageUrl")
  let agentLogoDataUri := imageUrlToDataUri fsO (optIdx agent "logoUrl")
  let priceFmt := fmtCurrency (optIdx listing "price")
  let sqftFmt := fmtNumber (optIdx listing "sqft")
  [Seg.const pdfK1,
   Seg.esc (some (jsOr (optIdx listing "title") (.str "Property Listing"))),
   Seg.const pdfK2,
   Seg.esc (some (.str (joinTruthy ", "
     [optIdx listing "address", optIdx listing "city", optIdx listing "state"]))),
   Seg.const pdfK3,
   Seg.esc (some (jsOr (optIdx listing "tone") (.str "MLS"))),
   Seg.const pdfK4]
  ++ presentedParts (optIdx agent "name")
  ++ [Seg.const pdfK5]
  ++ brokerageSuffixParts (optIdx agent "brokerage")
  ++ [Seg.const pdfK6]
  ++ logoBlock agentLogoDataUri
  ++ [Seg.const pdfK7]
  ++ condEsc "<div class=\"agentName\">" "</div>" (optIdx agent "name")
  ++ [Seg.const pdfK8]
  ++ condEsc "<div class=\"agentLine\">" "</div>" (optIdx agent "phone")
  ++ [Seg.const pdfK9]
  ++ condEsc "<div class=\"agentLine\">" "</div>" (optIdx agent "email")
  ++ [Seg.const pdfK10]
  ++ condEsc "<div class=\"agentLine\">" "</div>" (optIdx agent "brokerage")
  ++ [Seg.const pdfK11]
  ++ heroBlock propertyImageDataUri
  ++ [Seg.const pdfK12,
      Seg.esc (some (if priceFmt = "" then jsOr (optIdx listing "price") (.str "")
        else Json.str priceFmt)),
      Seg.const pdfK13,
      Seg.esc (some (.str (joinTruthy " • "
        [optIdx listing "beds", optIdx listing "baths",
         if sqftFmt = "" then optIdx listing "sqft" else some (Json.str sqftFmt)]))),
      Seg.const pdfK14]
  ++ condEsc pdfYearPre pdfYearPost (optIdx listing "yearBuilt")
  ++ [Seg.const pdfK15,
      Seg.esc (some (jsOr (optIdx listing "description") (.str ""))),
      Seg.const pdfK16,
      Seg.esc (some (jsOr (optIdx agent "name") (.str ""))),
      Seg.const pdfK17]
  ++ condEsc footerSpanPre "</span>" (optIdx agent "phone")
  ++ [Seg.const pdfK18]
  ++ condEsc footerSpanPre "</span>" (optIdx agent "email")
  ++ [Seg.const pdfK19,
      Seg.esc (some (.str ts)),
      Seg.const pdfK20]

/-- `buildPdfHtml`: render the decomposition and apply the final
`.trim()`.  `ts` stands for `new Date().toLocaleString()`, the single
non-deterministic input. -/
def buildPdfHtml (fsO : String → Option (List Nat)) (ts : String)
    (listing : Json) : String :=
  String.mk (trimChars (renderParts (buildPdfParts fsO ts listing)))

/-! ### markup safety of the rendered parts -/

/-- a part is template text, or renders to a safe fragment -/
def segSafe (p : Seg) : Bool := p.isConst || fragSafe p.text

theorem segSafe_const (s : String) : segSafe (Seg.const s) = true := rfl

theorem segSafe_esc (v : Option Json) : segSafe (Seg.esc v) = true := by
  simp [segSafe, Seg.isConst, Seg.text, fragSafe_escapeChars]

theorem all_segSafe_condEsc (pre post : String) (v : Option Json) :
    (condEsc pre post v).all segSafe = true := by
  unfold condEsc
  split
  · simp [segSafe_const, segSafe_esc]
  · rfl

theorem all_segSafe_presented (v : Option Json) :
    (presentedParts v).all segSafe = true := by
  unfold presentedParts
  split
  · simp [segSafe_esc]
  · rfl

theorem all_segSafe_brokerage (v : Option Json) :
    (brokerageSuffixParts v).all segSafe = true := by
  unfold brokerageSuffixParts
  split
  · simp [segSafe_const, segSafe_esc]
  · rfl

theorem all_segSafe_imgBlock (pre post : String) (du : Option String)
    (h : ∀ d, du = some d → fragSafe d.data = true) :
    (imgBlock pre post du).all segSafe = true := by
  cases du with
  | none => rfl
  | some d =>
      simp [imgBlock, segSafe_const, segSafe, Seg.isConst, Seg.text, h d rfl]

/-- substring occurrence test -/
def occursSub (pat : List Char) : List Char → Bool
  | [] => pat.isEmpty
  | c :: rest => pat.isPrefixOf (c :: rest) || occursSub pat rest

/-- every part of every built document is either literal template text or
a markup-safe fragment -/
theorem buildPdfParts_all_segSafe (fsO : String → Option (List Nat))
    (ts : String) (listing : Json) :
    (buildPdfParts fsO ts listing).all segSafe = true := by
  have hHeroSafe := fun d =>
    imageUrlToDataUri_fragSafe fsO (optIdx listing "imageUrl") d
  have hLogoSafe := fun d =>
    imageUrlToDataUri_fragSafe fsO
      (optIdx (jsOr (optIdx listing "agent") (.obj [])) "logoUrl") d
  simp only [buildPdfParts, heroBlock, logoBlock, List.all_append,
    List.all_cons, List.all_nil, Bool.and_eq_true, Bool.and_true,
    segSafe_const, segSafe_esc, all_segSafe_condEsc, all_segSafe_presented,
    all_segSafe_brokerage, and_true, true_and]
  exact ⟨all_segSafe_imgBlock _ _ _ hLogoSafe, all_segSafe_imgBlock _ _ _ hHeroSafe⟩

/-! ### claim theorems: the listing store -/

theorem optIdx_nullGuard (body : Json) (k : String) :
    optIdx2 (if body = Json.null then none else some body) k = optIdx body k := by
  split
  · next h => subst h; rfl
  · rfl

/-- C4: `readListings` is a total function of the backing-file state; a
missing file (re-created empty by `ensureDataFile`) and an unparsable
file both read as the empty sequence, and a parsed array reads back as
exactly its ordered elements. -/
theorem readListings_total_on_file_states :
    readListings .missing = []
    ∧ (∀ raw : String, readListings (.unparsable raw) = [])
    ∧ (∀ xs : List Json, readListings (.parsed (.arr xs)) = xs) :=
  ⟨rfl, fun _ => rfl, fun _ => rfl⟩

/-- C10: when the backing file holds syntactically valid JSON whose top
level is not an array, `readListings` returns the empty sequence rather
than that value, so the read path always yields a list. -/
theorem readListings_nonarray_json_empty :
    ∀ v : Json, isArrJ v = false → readListings (.parsed v) = [] := by
  intro v h
  cases v <;> first | rfl | (exfalso; simp [isArrJ] at h)

/-- C10 witness at a concrete object-valued file -/
theorem readListings_nonarray_json_empty_witness :
    readListings (.parsed (Json.obj [("a", Json.num 1)])) = [] :=
  readListings_nonarray_json_empty (Json.obj [("a", Json.num 1)]) rfl

/-- C2 counterexample: the body `{"id": 0}` carries a present, non-empty
id, yet the save handler rejects it with 400 — `!listing?.id` tests JS
falsiness, not absence/emptiness -/
theorem save_rejects_present_nonempty_id :
    optIdx (Json.obj [("id", Json.num 0)]) "id" = some (Json.num 0)
    ∧ saveHandler (Json.obj [("id", Json.num 0)]) [] = ((400, false), []) :=
  ⟨rfl, rfl⟩

/-- C2 amended: the save operation fails with 400 exactly when the
body's id is absent or JS-falsy (null, false, 0 or the empty string); on
that failure path the stored sequence is untouched; a body whose id is a
present, non-empty string is never rejected. -/
theorem save_validation_amended :
    ∀ (body : Json) (store : List Json),
      ((saveHandler body store).1 = (400, false)
        ↔ ¬ ∃ v, optIdx body "id" = some v ∧ jsTruthy v = true)
      ∧ ((saveHandler body store).1 = (400, false) →
          (saveHandler body store).2 = store)
      ∧ (∀ s : String, optIdx body "id" = some (.str s) → s ≠ "" →
          saveHandler body store = ((200, true), body :: store)) := by
  intro body store
  have hguard : jsTruthyOpt (optIdx2 (if body = Json.null then none else some body) "id")
      = jsTruthyOpt (optIdx body "id") := by rw [optIdx_nullGuard]
  refine ⟨?_, ?_, ?_⟩
  · constructor
    · intro h hex
      rcases hex with ⟨v, hv, htr⟩
      unfold saveHandler at h
      rw [hguard, hv] at h
      simp only [jsTruthyOpt, htr] at h
      simp at h
    · intro hnex
      unfold saveHandler
      rw [hguard]
      rcases hv : optIdx body "id" with _ | v
      · rfl
      · have : jsTruthy v = false := by
          by_contra hc
          exact hnex ⟨v, hv, by simpa using hc⟩
        simp [jsTruthyOpt, this]
  · intro h
    unfold saveHandler at h ⊢
    rw [hguard] at h ⊢
    by_cases hc : jsTruthyOpt (optIdx body "id") = false
    · simp [hc]
    · simp [hc] at h
  · intro s hid hs
    unfold saveHandler
    rw [hguard, hid]
    have : jsTruthy (Json.str s) = true := by simpa [jsTruthy] using hs
    simp [jsTruthyOpt, this]

/-- C2 amended witness: a concrete non-empty string id is accepted and
prepended -/
theorem save_validation_amended_witness :
    saveHandler (Json.obj [("id", Json.str "abc")]) []
      = ((200, true), [Json.obj [("id", Json.str "abc")]]) :=
  (save_validation_amended (Json.obj [("id", Json.str "abc")]) []).2.2 "abc" rfl
    (by decide)

/-- C3: saving a record whose string id is non-empty and absent from the
store succeeds, and an immediate `getById` on that id returns the very
record (`unshift` puts it first, `find` scans from the front). -/
theorem save_then_getById_roundtrip :
    ∀ (store : List Json) (r : Json) (s : String),
      optIdx r "id" = some (.str s) → s ≠ "" →
      (∀ l ∈ store, optIdx l "id" ≠ some (.str s)) →
      (saveHandler r store).1 = (200, true)
      ∧ getById s (saveHandler r store).2 = some r := by
  intro store r s hid hs _hfresh
  have hstep : saveHandler r store = ((200, true), r :: store) := by
    unfold saveHandler
    rw [optIdx_nullGuard, hid]
    have : jsTruthy (Json.str s) = true := by simpa [jsTruthy] using hs
    simp [jsTruthyOpt, this]
  rw [hstep]
  refine ⟨rfl, ?_⟩
  unfold getById
  have hpred : idIs s r = true := by
    unfold idIs
    rw [hid]
    simp
  exact List.find?_cons_of_pos store hpred

/-- C3 witness at a concrete record and empty store -/
theorem save_then_getById_roundtrip_witness :
    (saveHandler (Json.obj [("id", Json.str "abc"), ("title", Json.str "Cozy")]) []).1
      = (200, true)
    ∧ getById "abc"
        (saveHandler (Json.obj [("id", Json.str "abc"), ("title", Json.str "Cozy")]) []).2
      = some (Json.obj [("id", Json.str "abc"), ("title", Json.str "Cozy")]) :=
  save_then_getById_roundtrip []
    (Json.obj [("id", Json.str "abc"), ("title", Json.str "Cozy")]) "abc" rfl
    (by decide) (by simp)

/-- C5: deletion filters out every record whose id matches — not just
the first — keeps every non-matching record in order, leaves the
sequence unchanged when nothing matches, and answers the same
`200 / ok: true` envelope in all cases.  (Null store elements are
excluded: JS property access on `null` would throw instead.) -/
theorem deleteById_filters_all_matches :
    ∀ (id : String) (store : List Json),
      (∀ l ∈ store, isNullJ l = false) →
      (deleteHandler id store).1 = (200, true)
      ∧ (∀ l ∈ (deleteHandler id store).2, idIs id l = false)
      ∧ (deleteHandler id store).2.Sublist store
      ∧ (∀ l ∈ store, idIs id l = false → l ∈ (deleteHandler id store).2)
      ∧ ((∀ l ∈ store, idIs id l = false) → (deleteHandler id store).2 = store) := by
  intro id store _hnn
  refine ⟨rfl, ?_, ?_, ?_, ?_⟩
  · intro l hl
    have := (List.mem_filter.mp hl).2
    simpa using this
  · exact List.filter_sublist store
  · intro l hl hno
    exact List.mem_filter.mpr ⟨hl, by simpa using hno⟩
  · intro hall
    apply List.filter_eq_self.mpr
    intro a ha
    simpa using hall a ha

/-- C5 witness: both records with the duplicated id go, the other stays -/
theorem deleteById_filters_all_matches_witness :
    (deleteHandler "a" [Json.obj [("id", Json.str "a")],
        Json.obj [("id", Json.str "b")],
        Json.obj [("id", Json.str "a"), ("title", Json.str "t")]]).1 = (200, true)
    ∧ ∀ l ∈ (deleteHandler "a" [Json.obj [("id", Json.str "a")],
        Json.obj [("id", Json.str "b")],
        Json.obj [("id", Json.str "a"), ("title", Json.str "t")]]).2,
        idIs "a" l = false := by
  have h := deleteById_filters_all_matches "a"
    [Json.obj [("id", Json.str "a")], Json.obj [("id", Json.str "b")],
     Json.obj [("id", Json.str "a"), ("title", Json.str "t")]] (by decide)
  exact ⟨h.1, h.2.1⟩

/-! ### claim theorems: persisted-form wellformedness -/

theorem isNullJ_str (s : String) : isNullJ (Json.str s) = false := rfl

theorem isNullJ_jsOr (o : Option Json) (d : String) :
    isNullJ (jsOr o (Json.str d)) = false := by
  cases o with
  | none => rfl
  | some v =>
      simp only [jsOr]
      split
      · next h => cases v <;> first | rfl | (exfalso; simp [jsTruthy] at h)
      · rfl

/-- C9 counterexample: the save handler persists the request body
verbatim; the body `{"id": "x1"}` passes validation, yet the persisted
record lacks every other field (and so has undefined field values, with
nothing defaulted to the empty string). -/
theorem save_persists_record_missing_fields :
    saveHandler (Json.obj [("id", Json.str "x1")]) []
      = ((200, true), [Json.obj [("id", Json.str "x1")]])
    ∧ wfListing (Json.obj [("id", Json.str "x1")]) = false := ⟨rfl, by decide⟩

/-- C9 amended: the no-null/undefined-field invariant (all fields except
`id` and `createdAt` defaulting to the empty string when absent) holds
for every record the generate handler constructs, and is preserved by
delete and by save of an already-wellformed body; the save handler
itself, however, persists arbitrary bodies, so the invariant is not
enforced store-wide (see the counterexample). -/
theorem listing_wellformedness_amended :
    (∀ (newId now genTitle genDescription : String) (input : Json),
        wfListing (generateListing newId now genTitle genDescription input) = true)
    ∧ (∀ (id : String) (store : List Json), store.all wfListing = true →
        ((deleteHandler id store).2).all wfListing = true)
    ∧ (∀ (body : Json) (store : List Json), wfListing body = true →
        store.all wfListing = true →
        ((saveHandler body store).2).all wfListing = true) := by
  refine ⟨?_, ?_, ?_⟩
  · intro newId now genTitle genDescription input
    simp [wfListing, generateListing, topFields, agentFields, optIdx, optIdx2,
      findVal, isNullJ_jsOr, isNullJ_str]
  · intro id store hall
    rw [List.all_eq_true] at hall ⊢
    intro l hl
    exact hall l (List.mem_filter.mp hl).1
  · intro body store hbody hall
    unfold saveHandler
    by_cases hc : jsTruthyOpt
        (optIdx2 (if body = Json.null then none else some body) "id") = false
    · simp only [if_pos hc]
      exact hall
    · simp only [if_neg hc]
      rw [List.all_eq_true] at hall ⊢
      intro l hl
      rcases List.mem_cons.mp hl with h | h
      · subst h; exact hbody
      · exact hall l h

/-- C9 amended witness: a concrete generated record is wellformed -/
theorem listing_wellformedness_amended_witness :
    ((saveHandler (generateListing "i1" "t1" "T" "D" (Json.obj [])) []).2).all
      wfListing = true := by
  have h := listing_wellformedness_amended
  exact h.2.2 (generateListing "i1" "t1" "T" "D" (Json.obj [])) []
    (h.1 "i1" "t1" "T" "D" (Json.obj [])) rfl

/-! ### claim theorems: price and sqft formatting -/

/-- C6 counterexample: `fmtCurrency` does not pass `"N/A"` through; the
character strip leaves the empty string, JS `Number("")` is `0`, and the
result is formatted as `$0`. -/
theorem fmtCurrency_NA_not_passthrough :
    fmtCurrency (some (Json.str "N/A")) = "$0"
    ∧ ("$0" : String) ≠ "N/A" := ⟨by decide, by decide⟩

/-- C6 amended: after trimming, an empty input stays empty; any `$` or
`,` passes the trimmed string through; otherwise every character but
digits and dots is stripped and the residue read as a number — `NaN`
(ill-placed dots) passes the trimmed string through, anything else
(including the empty residue, which reads as 0) renders as grouped,
`$`-prefixed dollars.  `"450000"` and `"$450,000"` behave as the spec
says; `"N/A"` becomes `"$0"`. -/
theorem fmtCurrency_amended_rules :
    (∀ v : Option Json,
      (String.mk (trimChars (jsStr v).data) ≠ "" →
        (hasChar (String.mk (trimChars (jsStr v).data)) '$' = true
          ∨ hasChar (String.mk (trimChars (jsStr v).data)) ',' = true) →
        fmtCurrency v = String.mk (trimChars (jsStr v).data))
      ∧ (String.mk (trimChars (jsStr v).data) ≠ "" →
          hasChar (String.mk (trimChars (jsStr v).data)) '$' = false →
          hasChar (String.mk (trimChars (jsStr v).data)) ',' = false →
          jsRoundedNumber (stripNonDigitDot (trimChars (jsStr v).data)) = none →
          fmtCurrency v = String.mk (trimChars (jsStr v).data))
      ∧ (∀ n : Nat, String.mk (trimChars (jsStr v).data) ≠ "" →
          hasChar (String.mk (trimChars (jsStr v).data)) '$' = false →
          hasChar (String.mk (trimChars (jsStr v).data)) ',' = false →
          jsRoundedNumber (stripNonDigitDot (trimChars (jsStr v).data)) = some n →
          fmtCurrency v = "$" ++ intlGroup n))
    ∧ fmtCurrency (some (Json.str "450000")) = "$450,000"
    ∧ fmtCurrency (some (Json.str "$450,000")) = "$450,000"
    ∧ fmtCurrency (some (Json.str "N/A")) = "$0" := by
  refine ⟨?_, by decide, by decide, by decide⟩
  intro v
  refine ⟨?_, ?_, ?_⟩
  · intro hne hsym
    unfold fmtCurrency
    rcases hsym with h | h <;> simp [hne, h]
  · intro hne hd hc hnan
    unfold fmtCurrency
    have hmk : (String.mk (trimChars (jsStr v).data)).data
        = trimChars (jsStr v).data := rfl
    simp [hne, hd, hc, hmk, hnan]
  · intro n hne hd hc hnum
    unfold fmtCurrency
    have hmk : (String.mk (trimChars (jsStr v).data)).data
        = trimChars (jsStr v).data := rfl
    simp [hne, hd, hc, hmk, hnum]

/-- C6 amended witness: a concrete `$`-bearing input passes through -/
theorem fmtCurrency_amended_rules_witness :
    fmtCurrency (some (Json.str "$5")) = "$5" := by
  have h := (fmtCurrency_amended_rules.1 (some (Json.str "$5"))).1
    (by decide) (Or.inl (by decide))
  exact h.trans (by decide)

/-- C7 counterexample: `fmtNumber` does not follow the same rule as
price — the input `"$1000"` contains a currency symbol yet is formatted
(to `"1,000"`) instead of being passed through, because the function
only tests for `,`. -/
theorem fmtNumber_currency_symbol_formatted :
    fmtNumber (some (Json.str "$1000")) = "1,000"
    ∧ ("1,000" : String) ≠ "$1000" := ⟨by decide, by decide⟩

/-- C7 amended: after trimming, an empty input stays empty; a `,` (the
only passthrough symbol — `$` is not one) passes the trimmed string
through; otherwise the digits-and-dots residue is read as a number, with
`NaN` passing the trimmed string through and anything else rendered as a
grouped integer. -/
theorem fmtNumber_amended_rules :
    (∀ v : Option Json,
      (String.mk (trimChars (jsStr v).data) ≠ "" →
        hasChar (String.mk (trimChars (jsStr v).data)) ',' = true →
        fmtNumber v = String.mk (trimChars (jsStr v).data))
      ∧ (String.mk (trimChars (jsStr v).data) ≠ "" →
          hasChar (String.mk (trimChars (jsStr v).data)) ',' = false →
          jsRoundedNumber (stripNonDigitDot (trimChars (jsStr v).data)) = none →
          fmtNumber v = String.mk (trimChars (jsStr v).data))
      ∧ (∀ n : Nat, String.mk (trimChars (jsStr v).data) ≠ "" →
          hasChar (String.mk (trimChars (jsStr v).data)) ',' = false →
          jsRoundedNumber (stripNonDigitDot (trimChars (jsStr v).data)) = some n →
          fmtNumber v = intlGroup n))
    ∧ fmtNumber (some (Json.str "4500")) = "4,500"
    ∧ fmtNumber (some (Json.str "1,000")) = "1,000"
    ∧ fmtNumber (some (Json.str "$1000")) = "1,000" := by
  refine ⟨?_, by decide, by decide, by decide⟩
  intro v
  have hmk : (String.mk (trimChars (jsStr v).data)).data
      = trimChars (jsStr v).data := rfl
  refine ⟨?_, ?_, ?_⟩
  · intro hne hsym
    unfold fmtNumber
    simp [hne, hsym]
  · intro hne hc hnan
    unfold fmtNumber
    simp [hne, hc, hmk, hnan]
  · intro n hne hc hnum
    unfold fmtNumber
    simp [hne, hc, hmk, hnum]

/-- C7 amended witness: a concrete comma-free numeric input is grouped -/
theorem fmtNumber_amended_rules_witness :
    fmtNumber (some (Json.str "1800")) = "1,800" := by
  have h := (fmtNumber_amended_rules.1 (some (Json.str "1800"))).2.2 1800
    (by decide) (by decide) (by decide)
  exact h.trans (by decide)

/-! ### claim theorems: image inlining -/

theorem imageUrlToDataUri_some_iff (fsO : String → Option (List Nat))
    (s : String) :
    (imageUrlToDataUri fsO (some (.str s))).isSome = true
      ↔ (s ≠ "" ∧ strStartsWith s "/uploads/" = true ∧ (fsO s).isSome = true) := by
  simp only [imageUrlToDataUri]
  by_cases hemp : s = ""
  · subst hemp
    simp [jsTruthy]
  · rw [if_neg (by simp [jsTruthy, hemp])]
    have hjs : jsToString (Json.str s) = s := rfl
    rw [hjs]
    by_cases hstart : strStartsWith s "/uploads/" = true
    · rw [if_neg (by simp [hstart])]
      rcases hfs : fsO s with _ | bytes
      · simp [hemp, hstart, hfs]
      · simp [hemp, hstart, hfs]
    · rw [if_pos (by simpa using hstart)]
      simp [hemp, hstart]

theorem imageUrlToDataUri_produces (fsO : String → Option (List Nat))
    (s : String) (bytes : List Nat)
    (hstart : strStartsWith s "/uploads/" = true) (hfs : fsO s = some bytes) :
    imageUrlToDataUri fsO (some (.str s))
      = some ("data:" ++ mimeForExt (String.mk ((extnameL s.data).map Char.toLower))
          ++ ";base64," ++ String.mk (base64Encode bytes)) := by
  have hne : s ≠ "" := by
    intro h
    subst h
    simp [strStartsWith, List.isPrefixOf] at hstart
  simp only [imageUrlToDataUri]
  rw [if_neg (by simp [jsTruthy, hne])]
  have hjs : jsToString (Json.str s) = s := rfl
  rw [hjs, if_neg (by simp [hstart]), hfs]

theorem all_noUri_condEsc (pre post : String) (v : Option Json) :
    (condEsc pre post v).all (fun p => !p.isUri) = true := by
  unfold condEsc
  split <;> simp [Seg.isUri]

theorem all_noUri_presented (v : Option Json) :
    (presentedParts v).all (fun p => !p.isUri) = true := by
  unfold presentedParts
  split <;> simp [Seg.isUri]

theorem all_noUri_brokerage (v : Option Json) :
    (brokerageSuffixParts v).all (fun p => !p.isUri) = true := by
  unfold brokerageSuffixParts
  split <;> simp [Seg.isUri]

/-- when neither image reference resolves, the rendered document has no
data-URI part at all: the corresponding image elements are omitted
entirely rather than linked -/
theorem buildPdfParts_noUri (fsO : String → Option (List Nat)) (ts : String)
    (listing : Json)
    (hHero : imageUrlToDataUri fsO (optIdx listing "imageUrl") = none)
    (hLogo : imageUrlToDataUri fsO
        (optIdx (jsOr (optIdx listing "agent") (.obj [])) "logoUrl") = none) :
    (buildPdfParts fsO ts listing).all (fun p => !p.isUri) = true := by
  simp only [buildPdfParts, heroBlock, logoBlock, hHero, hLogo, imgBlock,
    List.all_append, List.all_cons, List.all_nil, Bool.and_eq_true,
    all_noUri_condEsc, all_noUri_presented, all_noUri_brokerage]
  simp [Seg.isUri]

/-- C8: `imageUrlToDataUri` yields a data URI exactly for a non-empty
reference into the local `/uploads/` retrieval path whose file the
filesystem can deliver; the URI is base64 of the bytes with the MIME
type `image/png` for `.png`, `image/webp` for `.webp` and `image/jpeg`
for every other extension; a nullish reference yields nothing; and when
the references resolve to nothing `buildPdfHtml`'s part list carries no
data-URI part, so the document omits the image elements rather than
linking them. -/
theorem imageUrlToDataUri_spec :
    (∀ fsO : String → Option (List Nat), imageUrlToDataUri fsO none = none)
    ∧ (∀ fsO : String → Option (List Nat),
        imageUrlToDataUri fsO (some (Json.str "")) = none)
    ∧ (∀ (fsO : String → Option (List Nat)) (s : String),
        (imageUrlToDataUri fsO (some (.str s))).isSome = true
          ↔ (s ≠ "" ∧ strStartsWith s "/uploads/" = true ∧ (fsO s).isSome = true))
    ∧ (∀ (fsO : String → Option (List Nat)) (s : String) (bytes : List Nat),
        strStartsWith s "/uploads/" = true → fsO s = some bytes →
        imageUrlToDataUri fsO (some (.str s))
          = some ("data:"
              ++ mimeForExt (String.mk ((extnameL s.data).map Char.toLower))
              ++ ";base64," ++ String.mk (base64Encode bytes)))
    ∧ mimeForExt ".png" = "image/png"
    ∧ mimeForExt ".webp" = "image/webp"
    ∧ (∀ e : String, e ≠ ".png" → e ≠ ".webp" → mimeForExt e = "image/jpeg")
    ∧ (∀ (fsO : String → Option (List Nat)) (ts : String) (listing : Json),
        imageUrlToDataUri fsO (optIdx listing "imageUrl") = none →
        imageUrlToDataUri fsO
          (optIdx (jsOr (optIdx listing "agent") (.obj [])) "logoUrl") = none →
        (buildPdfParts fsO ts listing).all (fun p => !p.isUri) = true) := by
  refine ⟨fun _ => rfl, fun _ => rfl, imageUrlToDataUri_some_iff,
    imageUrlToDataUri_produces, rfl, rfl, ?_, buildPdfParts_noUri⟩
  intro e h1 h2
  unfold mimeForExt
  rw [if_neg h1, if_neg h2]

/-- C8 witness: a concrete readable upload is inlined as a png data URI,
and with no readable files the document carries no data URI -/
theorem imageUrlToDataUri_spec_witness :
    imageUrlToDataUri (fun p => if p = "/uploads/a.png" then some [1, 2, 3] else none)
        (some (.str "/uploads/a.png")) = some "data:image/png;base64,AQID"
    ∧ (buildPdfParts (fun _ => none) "1/1/2024"
        (Json.obj [("id", Json.str "x")])).all (fun p => !p.isUri) = true := by
  constructor
  · have h := imageUrlToDataUri_spec.2.2.2.1
      (fun p => if p = "/uploads/a.png" then some [1, 2, 3] else none)
      "/uploads/a.png" [1, 2, 3] (by decide) (by decide)
    exact h.trans (by decide)
  · exact imageUrlToDataUri_spec.2.2.2.2.2.2.2
      (fun _ => none) "1/1/2024" (Json.obj [("id", Json.str "x")]) rfl rfl

/-! ### claim theorem: HTML escaping in the PDF template -/

/-- C1: in every document `buildPdfHtml` builds, every part that is not
literal template text — every escaped interpolation of an input-sourced
value (title, address line, tone badge, agent name/phone/email/
brokerage, price, beds/baths/sqft line, year built, description, footer
fragments, generation timestamp) and every inlined data URI — renders to
a fragment with no raw `<`, `>`, `"` or `'` and with every `&` opening
one of the five emitted entities; the document is exactly the trimmed
concatenation of these parts; and concretely, a `<script>` injected in
`title` appears in the output only as escaped entities. -/
theorem buildPdfHtml_escapes_all_input :
    ∀ (fsO : String → Option (List Nat)) (ts : String) (listing : Json),
      ((buildPdfParts fsO ts listing).all segSafe = true)
      ∧ buildPdfHtml fsO ts listing
          = String.mk (trimChars (renderParts (buildPdfParts fsO ts listing)))
      ∧ occursSub "<script".data (buildPdfHtml (fun _ => none) "1/1/2024"
          (Json.obj [("id", Json.str "x"),
            ("title", Json.str "<script>alert(1)</script>")])).data = false
      ∧ occursSub "&lt;script&gt;alert(1)&lt;/script&gt;".data
          (buildPdfHtml (fun _ => none) "1/1/2024"
            (Json.obj [("id", Json.str "x"),
              ("title", Json.str "<script>alert(1)</script>")])).data = true := by
  intro fsO ts listing
  refine ⟨buildPdfParts_all_segSafe fsO ts listing, rfl, ?_, ?_⟩
  · set_option maxRecDepth 100000 in decide
  · set_option maxRecDepth 100000 in decide
